import Mathlib

/-!
The d1login session handlers and the session registry.

A shallow embedding of `server.go` (`Server.trackSession`) and
`session_handle.go` (`login`, `controlAccount` and the six message handlers).

* A `*session` pointer is a natural number; the session objects live in
  `Server.mem`, the key set of the `sessions` map is `Server.sessions`.
* Everything the handlers call outside the two files (the repository service,
  `decryptedPassword`, `argon2id.ComparePasswordAndHash`, `uuid.NewV4`,
  `time.Now`, the message codecs, the iteration order of a Go map) is a field of
  `Env`: the theorems hold for every such environment.
* A Go `error` result is `Except Error Unit`; `.ok ()` is `nil`.
* Go `int` values are `Int`: the handlers only compare and increment them
  (a count of characters held in memory cannot overflow 64 bits).
* Calls to the logger have no effect on the state and are left out.
-/

namespace D1Login

/-! ## Data model -/

/-- Go error values: the sentinel `errEndOfService`, the repository's
`d1.ErrResourceNotFound`, and every other error (identified by its text). -/
inductive Error where
  | errEndOfService
  | ErrResourceNotFound
  | other (msg : String)
  deriving DecidableEq, Repr

/-- The message `msgcli.AccountVersion`; `login` reads `Major` and `Minor`. -/
structure AccountVersion where
  Major : Int
  Minor : Int
  Patch : Int
  deriving DecidableEq, Repr, Inhabited

/-- The message `msgcli.AccountCredential`. -/
structure AccountCredential where
  Username : String
  CryptoMethod : Int
  Hash : String
  deriving DecidableEq, Repr, Inhabited

/-- The message `msgcli.AccountSearchForFriend`. -/
structure AccountSearchForFriend where
  Pseudo : String
  deriving DecidableEq, Repr, Inhabited

/-- The message `msgcli.AccountSetServer`. -/
structure AccountSetServer where
  Id : Int
  deriving DecidableEq, Repr, Inhabited

/-- The record `d1.Account`, with the fields the handlers read. -/
structure Account where
  Id : Int
  UserId : String
  Admin : Bool
  SubscribedUntil : Nat
  deriving DecidableEq, Repr, Inhabited

/-- The record `d1.User`, with the fields the handlers read. -/
structure User where
  Id : String
  Hash : String
  Nickname : String
  Community : Int
  Question : String
  deriving DecidableEq, Repr, Inhabited

/-- The record `d1.Character`; the handlers read `GameServerId` only. -/
structure Character where
  Id : Int
  AccountId : Int
  GameServerId : Int
  deriving DecidableEq, Repr, Inhabited

/-- The record `d1.GameServer`. -/
structure GameServer where
  Id : Int
  Host : String
  Port : String
  deriving DecidableEq, Repr, Inhabited

/-- The record `d1.Ticket`; `Created` is a UTC instant. -/
structure Ticket where
  Id : String
  AccountId : Int
  GameServerId : Int
  Created : Nat
  deriving DecidableEq, Repr, Inhabited

/-- The values of `enum.AccountLoginErrorReason` the handlers use. -/
inductive AccountLoginErrorReason where
  | BadVersion
  | AccessDenied
  | AlreadyLogged
  deriving DecidableEq, Repr

/-- The pair `prototyp.AccountServersListServerCharacters`. -/
structure AccountServersListServerCharacters where
  Id : Int
  Qty : Int
  deriving DecidableEq, Repr, Inhabited

/-- The message `msgsvr.AccountHosts`, as `Deserialize` fills it: one entry per
host, kept in serialized form. -/
structure AccountHosts where
  Value : List String
  deriving DecidableEq, Repr, Inhabited

/-- The server-to-client messages the handlers send. -/
inductive MsgSvr where
  | AccountLoginError (Reason : AccountLoginErrorReason) (Extra : String)
  | AccountPseudo (Value : String)
  | AccountCommunity (Id : Int)
  | AccountSecretQuestion (Value : String)
  | AccountHosts (hosts : D1Login.AccountHosts)
  | AccountLoginSuccess (Authorized : Bool)
  | AccountNewQueue (Position TotalAbo TotalNonAbo : Int) (Subscriber : Bool) (QueueId : Int)
  | AccountFriendServerList (ServersCharacters : List AccountServersListServerCharacters)
  | AccountServersListSuccess (Subscription : Nat)
      (ServersCharacters : List AccountServersListServerCharacters)
  | AccountSelectServerPlainSuccess (Host Port Ticket : String)
  deriving DecidableEq, Repr

/-- The protocol status stored in `session.status`. -/
inductive Status where
  | statusExpectingVersion
  | statusExpectingCredential
  | statusExpectingQueuePosition
  | statusIdle
  deriving DecidableEq, Repr

instance : Inhabited Status := ⟨Status.statusExpectingVersion⟩

/-- Modelled from the spec: the declaration of the status constants is not in
the given sources; the required order is
`AwaitingVersion → AwaitingCredential → AwaitingQueueAck → Idle`. -/
def Status.rank : Status → Nat
  | .statusExpectingVersion => 0
  | .statusExpectingCredential => 1
  | .statusExpectingQueuePosition => 2
  | .statusIdle => 3

/-- The struct `session`, with the fields the handlers use. `connClosed` records
that `conn.Close()` was called; `sent` is the sequence of messages handed to
`sendMsg`, oldest first. The zero value is what `handleClientConn` allocates. -/
structure session where
  salt : String
  version : AccountVersion
  credential : AccountCredential
  accountId : Int
  status : Status
  connClosed : Bool
  sent : List MsgSvr
  deriving DecidableEq, Repr

instance : Inhabited session :=
  ⟨{ salt := "", version := default, credential := default, accountId := 0,
     status := default, connClosed := false, sent := [] }⟩

/-- The filters passed to the repository service. -/
inductive Filter where
  | AccountNameEQ (name : String)
  | AccountIdEQ (id : Int)
  | AccountUserIdEQ (userId : String)
  | UserIdEQ (id : String)
  | UserNicknameEQ (nickname : String)
  | CharacterAccountIdEQ (accountId : Int)
  | GameServerIdEQ (id : Int)
  deriving DecidableEq, Repr

/-- One call made to the repository service `s.svr.svc`. -/
inductive RepoCall where
  | Account (f : Filter)
  | Accounts (f : Filter)
  | User (f : Filter)
  | Characters (f : Filter)
  | GameServer (f : Filter)
  | CreateTicket (t : Ticket)
  deriving DecidableEq, Repr

/-- The repository service `s.svr.svc` (external): what each call answers. -/
structure Service where
  Account : Filter → Except Error D1Login.Account
  Accounts : Filter → Except Error (List D1Login.Account)
  User : Filter → Except Error D1Login.User
  Characters : Filter → Except Error (List Character)
  GameServer : Filter → Except Error D1Login.GameServer
  CreateTicket : Ticket → Except Error Ticket

/-- The order in which a `range` loop visits the entries of a Go map: some
arrangement of the entries, not fixed by the language. -/
structure MapRange (α : Type) where
  order : List α → List α
  perm : ∀ l, (order l).Perm l

/-- The range order that visits the entries as stored. -/
def MapRange.asStored (α : Type) : MapRange α := ⟨fun l => l, fun l => List.Perm.refl l⟩

/-- Everything the handlers call that lies outside the two source files. -/
structure Env where
  svc : Service
  decryptedPassword : String → String → Except Error String
  ComparePasswordAndHash : String → String → Except Error Bool
  NewV4 : Except Error String
  now : Nat
  Deserialize : String → Except Error AccountHosts
  Serialized : AccountVersion → Except Error String
  rangeSessions : MapRange Nat
  rangeServerIdQty : MapRange (Int × Int)

/-- The struct `Server` together with the heap of session objects and the
observable state of the repository. `sessions` is the key set of the map
`sessions`; `hosts` is the cached serialized host list (`s.svr.hosts.Load()`);
`calls` lists the repository calls made so far, oldest first; `tickets` the
tickets stored by successful `CreateTicket` calls. -/
structure Server where
  sessions : List Nat
  mem : Nat → session
  hosts : String
  calls : List RepoCall
  tickets : List Ticket

/-! ## The registry (`server.go`, `session_handle.go`) -/

/-- Assignment to the fields of the session object at pointer `s`. -/
def Server.modify (svr : Server) (s : Nat) (f : session → session) : Server :=
  { svr with mem := Function.update svr.mem s (f (svr.mem s)) }

/-- The method `Server.trackSession` (server.go:158-169). -/
def trackSession (svr : Server) (sess : Nat) (add : Bool) : Server :=
  if add then
    { svr with sessions := List.insert sess svr.sessions }
  else
    { svr with sessions := svr.sessions.filter (fun p => p ≠ sess) }

/-- The method `session.controlAccount` (session_handle.go:112-123): the loop
stops at the first tracked session, in range order, whose `accountId` equals the
requested one. -/
def controlAccount (env : Env) (svr : Server) (s : Nat) (accountId : Int) :
    Server × Except Error Unit :=
  match (env.rangeSessions.order svr.sessions).find?
      (fun sess => (svr.mem sess).accountId == accountId) with
  | some sess =>
    (svr.modify sess (fun x => { x with connClosed := true }),
      .error (.other "already logged in"))
  | none => (svr.modify s (fun x => { x with accountId := accountId }), .ok ())

/-- The registry states of the exclusivity invariant: from an empty registry,
by tracking a session that holds no account id, untracking a session, or a claim
by any session for any account id under any range order. -/
inductive Reachable : Server → Prop where
  | empty (svr : Server) (h : svr.sessions = []) : Reachable svr
  | add (svr : Server) (sess : Nat) (hr : Reachable svr)
      (hfresh : (svr.mem sess).accountId = 0) : Reachable (trackSession svr sess true)
  | remove (svr : Server) (sess : Nat) (hr : Reachable svr) :
      Reachable (trackSession svr sess false)
  | claim (env : Env) (svr : Server) (sess : Nat) (accountId : Int) (hr : Reachable svr) :
      Reachable (controlAccount env svr sess accountId).1

/-- No two distinct tracked sessions hold the same bound (non-zero) account id. -/
def Exclusive (svr : Server) : Prop :=
  ∀ a ∈ svr.sessions, ∀ b ∈ svr.sessions, a ≠ b →
    (svr.mem a).accountId ≠ 0 → (svr.mem a).accountId ≠ (svr.mem b).accountId

/-! ## The handlers (`session_handle.go`) -/

/-- Modelled from the spec: the method `sendMsg` is declared outside the given
sources; it hands one server-to-client message to the session's connection. -/
def sendMsg (svr : Server) (s : Nat) (m : MsgSvr) : Server :=
  svr.modify s (fun x => { x with sent := x.sent ++ [m] })

/-- Records one call to the repository service. -/
def Server.call (svr : Server) (c : RepoCall) : Server :=
  { svr with calls := svr.calls ++ [c] }

/-- The method `session.login` (session_handle.go:21-110). -/
def login (env : Env) (svr : Server) (s : Nat) : Server × Except Error Unit :=
  if (svr.mem s).version.Major ≠ 1 ∨ (svr.mem s).version.Minor < 29 then
    let svr1 := sendMsg svr s (.AccountLoginError .BadVersion "^1.29.0")
    match env.Serialized (svr.mem s).version with
    | .error err => (svr1, .error err)
    | .ok _ => (svr1, .error .errEndOfService)
  else if (svr.mem s).credential.CryptoMethod ≠ 1 then
    (svr, .error .errEndOfService)
  else
    match env.decryptedPassword (svr.mem s).credential.Hash (svr.mem s).salt with
    | .error _ => (svr, .error .errEndOfService)
    | .ok password =>
      let svr1 := svr.call (.Account (.AccountNameEQ (svr.mem s).credential.Username))
      match env.svc.Account (.AccountNameEQ (svr.mem s).credential.Username) with
      | .error err => (sendMsg svr1 s (.AccountLoginError .AccessDenied ""), .error err)
      | .ok account =>
        let svr2 := svr1.call (.User (.UserIdEQ account.UserId))
        match env.svc.User (.UserIdEQ account.UserId) with
        | .error err => (svr2, .error err)
        | .ok user =>
          match env.ComparePasswordAndHash password user.Hash with
          | .error err => (svr2, .error err)
          | .ok false =>
            (sendMsg svr2 s (.AccountLoginError .AccessDenied ""), .error .errEndOfService)
          | .ok true =>
            match controlAccount env svr2 s account.Id with
            | (svr3, .error _) =>
              (sendMsg svr3 s (.AccountLoginError .AlreadyLogged ""), .error .errEndOfService)
            | (svr3, .ok _) =>
              let svr4 := sendMsg svr3 s (.AccountPseudo user.Nickname)
              let svr5 := sendMsg svr4 s (.AccountCommunity user.Community)
              let svr6 := sendMsg svr5 s (.AccountSecretQuestion user.Question)
              match env.Deserialize svr6.hosts with
              | .error err => (svr6, .error err)
              | .ok hosts =>
                let svr7 := sendMsg svr6 s (.AccountHosts hosts)
                let svr8 := sendMsg svr7 s (.AccountLoginSuccess account.Admin)
                (svr8.modify s (fun x => { x with status := .statusIdle }), .ok ())

/-- The method `session.handleAccountVersion` (session_handle.go:125-129). -/
def handleAccountVersion (svr : Server) (s : Nat) (m : AccountVersion) :
    Server × Except Error Unit :=
  (svr.modify s (fun x => { x with version := m, status := .statusExpectingCredential }), .ok ())

/-- The method `session.handleAccountCredential` (session_handle.go:131-135). -/
def handleAccountCredential (svr : Server) (s : Nat) (m : AccountCredential) :
    Server × Except Error Unit :=
  (svr.modify s (fun x => { x with credential := m, status := .statusExpectingQueuePosition }),
    .ok ())

/-- The method `session.handleAccountQueuePosition` (session_handle.go:137-151). -/
def handleAccountQueuePosition (env : Env) (svr : Server) (s : Nat) :
    Server × Except Error Unit :=
  let svr1 := sendMsg svr s (.AccountNewQueue 1 0 1 false 0)
  if (svr1.mem s).status = .statusExpectingQueuePosition then
    login env svr1 s
  else
    (svr1, .ok ())

/-- The statement `serverIdQty[k]++` on a Go `map[int]int`, kept as an
association list with one entry per key: an absent key reads as zero. -/
def incr : List (Int × Int) → Int → List (Int × Int)
  | [], k => [(k, 0 + 1)]
  | (k', v) :: rest, k => if k' = k then (k', v + 1) :: rest else (k', v) :: incr rest k

/-- The loop `for _, character := range characters { serverIdQty[character.GameServerId]++ }`
(session_handle.go:176-178 and 208-210). -/
def countCharacters (serverIdQty : List (Int × Int)) (characters : List Character) :
    List (Int × Int) :=
  characters.foldl (fun m character => incr m character.GameServerId) serverIdQty

/-- The loop over `accounts` of `handleAccountSearchForFriend`
(session_handle.go:171-179): it returns at the first failing lookup. -/
def countAccounts (env : Env) (svr : Server) (serverIdQty : List (Int × Int)) :
    List Account → Server × Except Error (List (Int × Int))
  | [] => (svr, .ok serverIdQty)
  | account :: rest =>
    let svr1 := svr.call (.Characters (.CharacterAccountIdEQ account.Id))
    match env.svc.Characters (.CharacterAccountIdEQ account.Id) with
    | .error err => (svr1, .error err)
    | .ok characters => countAccounts env svr1 (countCharacters serverIdQty characters) rest

/-- The slice `serverCharacters` (session_handle.go:181-189 and 212-220): one
pair per map entry, appended in range order, then `sort.Slice` with
`less(i, j) = serverCharacters[i].Id < serverCharacters[j].Id`. -/
def serverCharacters (env : Env) (serverIdQty : List (Int × Int)) :
    List AccountServersListServerCharacters :=
  List.insertionSort (fun a b => a.Id < b.Id)
    ((env.rangeServerIdQty.order serverIdQty).map (fun e => { Id := e.1, Qty := e.2 }))

/-- The method `session.handleAccountSearchForFriend` (session_handle.go:153-194). -/
def handleAccountSearchForFriend (env : Env) (svr : Server) (s : Nat)
    (m : AccountSearchForFriend) : Server × Except Error Unit :=
  let svr1 := svr.call (.User (.UserNicknameEQ m.Pseudo))
  match env.svc.User (.UserNicknameEQ m.Pseudo) with
  | .error err =>
    if err = .ErrResourceNotFound then
      (sendMsg svr1 s (.AccountFriendServerList []), .ok ())
    else
      (svr1, .error err)
  | .ok user =>
    let svr2 := svr1.call (.Accounts (.AccountUserIdEQ user.Id))
    match env.svc.Accounts (.AccountUserIdEQ user.Id) with
    | .error err => (svr2, .error err)
    | .ok accounts =>
      match countAccounts env svr2 [] accounts with
      | (svr3, .error err) => (svr3, .error err)
      | (svr3, .ok serverIdQty) =>
        (sendMsg svr3 s (.AccountFriendServerList (serverCharacters env serverIdQty)), .ok ())

/-- The method `session.handleAccountGetServersList` (session_handle.go:196-228). -/
def handleAccountGetServersList (env : Env) (svr : Server) (s : Nat) :
    Server × Except Error Unit :=
  let svr1 := svr.call (.Account (.AccountIdEQ (svr.mem s).accountId))
  match env.svc.Account (.AccountIdEQ (svr.mem s).accountId) with
  | .error err => (svr1, .error err)
  | .ok account =>
    let svr2 := svr1.call (.Characters (.CharacterAccountIdEQ (svr.mem s).accountId))
    match env.svc.Characters (.CharacterAccountIdEQ (svr.mem s).accountId) with
    | .error err => (svr2, .error err)
    | .ok characters =>
      (sendMsg svr2 s (.AccountServersListSuccess account.SubscribedUntil
        (serverCharacters env (countCharacters [] characters))), .ok ())

/-- The method `session.handleAccountSetServer` (session_handle.go:230-258). A
ticket is stored when `CreateTicket` answers without error. -/
def handleAccountSetServer (env : Env) (svr : Server) (s : Nat) (m : AccountSetServer) :
    Server × Except Error Unit :=
  let svr1 := svr.call (.GameServer (.GameServerIdEQ m.Id))
  match env.svc.GameServer (.GameServerIdEQ m.Id) with
  | .error err => (svr1, .error err)
  | .ok gameServer =>
    match env.NewV4 with
    | .error err => (svr1, .error err)
    | .ok ticketId =>
      let ticket : Ticket :=
        { Id := ticketId, AccountId := (svr.mem s).accountId, GameServerId := m.Id,
          Created := env.now }
      let svr2 := svr1.call (.CreateTicket ticket)
      match env.svc.CreateTicket ticket with
      | .error err => (svr2, .error err)
      | .ok _ =>
        let svr3 : Server := { svr2 with tickets := svr2.tickets ++ [ticket] }
        (sendMsg svr3 s (.AccountSelectServerPlainSuccess gameServer.Host gameServer.Port ticketId),
          .error .errEndOfService)

/-! ## Vocabulary of the statements -/

/-- The messages sent to session `s` between the states `before` and `after`. -/
def sentBy (before after : Server) (s : Nat) : List MsgSvr :=
  ((after.mem s).sent).drop ((before.mem s).sent.length)

/-- The session passes every step of `login` that comes before the registry
claim: version gate, crypto-method gate, password decoding, account lookup, user
lookup and password verification. -/
def PassesGates (env : Env) (x : session) (account : Account) (user : User) : Prop :=
  x.version.Major = 1 ∧ 29 ≤ x.version.Minor ∧ x.credential.CryptoMethod = 1 ∧
  ∃ password, env.decryptedPassword x.credential.Hash x.salt = .ok password ∧
    env.svc.Account (.AccountNameEQ x.credential.Username) = .ok account ∧
    env.svc.User (.UserIdEQ account.UserId) = .ok user ∧
    env.ComparePasswordAndHash password user.Hash = .ok true

/-- The ticket `handleAccountSetServer` builds for session `s`, request `m` and
the generated id `ticketId`. -/
def ticketFor (env : Env) (svr : Server) (s : Nat) (m : AccountSetServer) (ticketId : String) :
    Ticket :=
  { Id := ticketId, AccountId := (svr.mem s).accountId, GameServerId := m.Id,
    Created := env.now }

/-- The game-server lookup, the ticket-id generation and the ticket creation of
`handleAccountSetServer` all succeed, with the given server and ticket id. -/
def SetServerSucceeds (env : Env) (svr : Server) (s : Nat) (m : AccountSetServer)
    (gameServer : GameServer) (ticketId : String) : Prop :=
  env.svc.GameServer (.GameServerIdEQ m.Id) = .ok gameServer ∧
  env.NewV4 = .ok ticketId ∧
  ∃ stored, env.svc.CreateTicket (ticketFor env svr s m ticketId) = .ok stored

/-- The read `serverIdQty[k]` of the Go map: zero for an absent key. -/
def qtyAt : List (Int × Int) → Int → Int
  | [], _ => 0
  | (k', v) :: rest, k => if k' = k then v else qtyAt rest k

/-- The reply list `l` counts `characters` per game server: strictly ascending
server ids, each quantity is the number of characters on that server and at
least 1, and the quantities sum to the number of characters. -/
def CountsPerServer (l : List AccountServersListServerCharacters)
    (characters : List Character) : Prop :=
  l.Pairwise (fun a b => a.Id < b.Id) ∧
  (∀ e ∈ l, e.Qty = ((characters.countP (fun c => c.GameServerId = e.Id) : Nat) : Int) ∧
    1 ≤ e.Qty) ∧
  (l.map (fun e => e.Qty)).sum = ((characters.length : Nat) : Int)

/-- The Go map built from `characters`: distinct keys, reads equal to the
number of characters per server, positive values, total equal to the number of
characters. -/
structure MapCounts (m : List (Int × Int)) (characters : List Character) : Prop where
  keys : (m.map Prod.fst).Nodup
  reads : ∀ k, qtyAt m k = ((characters.countP (fun c => c.GameServerId = k) : Nat) : Int)
  pos : ∀ e ∈ m, 1 ≤ e.2
  total : (m.map Prod.snd).sum = ((characters.length : Nat) : Int)

/-! ## Concrete inputs -/

/-- An environment with one account `alice` (id 7, not admin) of user `u1`,
whose characters are on game servers 3, 1 and 3; every external call succeeds
and the password `secret` verifies. -/
def env0 : Env where
  svc :=
    { Account := fun _ => .ok { Id := 7, UserId := "u1", Admin := false, SubscribedUntil := 0 }
      Accounts := fun _ =>
        .ok [{ Id := 7, UserId := "u1", Admin := false, SubscribedUntil := 0 }]
      User := fun _ =>
        .ok { Id := "u1", Hash := "h", Nickname := "al", Community := 0, Question := "q" }
      Characters := fun _ =>
        .ok [{ Id := 1, AccountId := 7, GameServerId := 3 },
             { Id := 2, AccountId := 7, GameServerId := 1 },
             { Id := 3, AccountId := 7, GameServerId := 3 }]
      GameServer := fun _ => .ok { Id := 3, Host := "h3", Port := "443" }
      CreateTicket := fun t => .ok t }
  decryptedPassword := fun _ _ => .ok "secret"
  ComparePasswordAndHash := fun p _ => .ok (p == "secret")
  NewV4 := .ok "t1"
  now := 0
  Deserialize := fun _ => .ok { Value := [] }
  Serialized := fun _ => .ok "1.29.0"
  rangeSessions := MapRange.asStored Nat
  rangeServerIdQty := MapRange.asStored (Int × Int)

/-- A session that announced version 1.29.0, sent credentials with crypto method
1 and waits for the queue acknowledgement. -/
def sessQueue : session :=
  { salt := "salt", version := { Major := 1, Minor := 29, Patch := 0 },
    credential := { Username := "alice", CryptoMethod := 1, Hash := "x" },
    accountId := 0, status := .statusExpectingQueuePosition, connClosed := false, sent := [] }

/-- A registry reached by tracking session 1, tracking session 2, a claim of
account 7 by session 1 and a claim of account 8 by session 2. -/
def registry12 : Server :=
  (controlAccount env0
    (controlAccount env0
      (trackSession (trackSession
        { sessions := [], mem := fun _ => default, hosts := "", calls := [], tickets := [] }
        1 true) 2 true) 1 7).1 2 8).1

/-- The environment `env0` with a cached host list that does not deserialize. -/
def envBadHosts : Env := { env0 with Deserialize := fun _ => .error (.other "invalid hosts") }

/-- The environment `env0` where the decoded password is not the user's. -/
def envWrongPassword : Env := { env0 with decryptedPassword := fun _ _ => .ok "wrong" }

/-- A registry whose only tracked session, 1, is `sessQueue`. -/
def svrQueue : Server :=
  { sessions := [1], mem := Function.update (fun _ => default) 1 sessQueue,
    hosts := "", calls := [], tickets := [] }

/-- The registry `svrQueue` with a second tracked session, 2, idle and bound
to account 7. -/
def svrHeld : Server :=
  { sessions := [2, 1],
    mem := Function.update (Function.update (fun _ => default) 1 sessQueue) 2
      { salt := "", version := default, credential := default, accountId := 7,
        status := .statusIdle, connClosed := false, sent := [] },
    hosts := "", calls := [], tickets := [] }

/-- The registry `svrQueue` with session 1 having announced version 1.28.9. -/
def svrOldVersion : Server :=
  { sessions := [1],
    mem := Function.update (fun _ => default) 1
      { sessQueue with version := { Major := 1, Minor := 28, Patch := 9 } },
    hosts := "", calls := [], tickets := [] }

/-- A registry whose only tracked session, 1, is `sessQueue` already bound to
account 7: it awaits the queue acknowledgement a second time. -/
def svrSelf : Server :=
  { sessions := [1],
    mem := Function.update (fun _ => default) 1 { sessQueue with accountId := 7 },
    hosts := "", calls := [], tickets := [] }

/-! ## Basic facts about the state updates -/

@[simp] theorem modify_sessions (svr : Server) (s : Nat) (f : session → session) :
    (svr.modify s f).sessions = svr.sessions := rfl

@[simp] theorem modify_hosts (svr : Server) (s : Nat) (f : session → session) :
    (svr.modify s f).hosts = svr.hosts := rfl

@[simp] theorem modify_calls (svr : Server) (s : Nat) (f : session → session) :
    (svr.modify s f).calls = svr.calls := rfl

@[simp] theorem modify_tickets (svr : Server) (s : Nat) (f : session → session) :
    (svr.modify s f).tickets = svr.tickets := rfl

@[simp] theorem modify_mem_same (svr : Server) (s : Nat) (f : session → session) :
    (svr.modify s f).mem s = f (svr.mem s) := by
  simp [Server.modify]

theorem modify_mem_other (svr : Server) (s p : Nat) (f : session → session) (h : p ≠ s) :
    (svr.modify s f).mem p = svr.mem p := by
  simp [Server.modify, Function.update_noteq h]

@[simp] theorem call_sessions (svr : Server) (c : RepoCall) :
    (svr.call c).sessions = svr.sessions := rfl

@[simp] theorem call_mem (svr : Server) (c : RepoCall) : (svr.call c).mem = svr.mem := rfl

@[simp] theorem call_hosts (svr : Server) (c : RepoCall) : (svr.call c).hosts = svr.hosts := rfl

@[simp] theorem call_tickets (svr : Server) (c : RepoCall) :
    (svr.call c).tickets = svr.tickets := rfl

@[simp] theorem call_calls (svr : Server) (c : RepoCall) :
    (svr.call c).calls = svr.calls ++ [c] := rfl

@[simp] theorem sendMsg_sessions (svr : Server) (s : Nat) (m : MsgSvr) :
    (sendMsg svr s m).sessions = svr.sessions := rfl

@[simp] theorem sendMsg_hosts (svr : Server) (s : Nat) (m : MsgSvr) :
    (sendMsg svr s m).hosts = svr.hosts := rfl

@[simp] theorem sendMsg_calls (svr : Server) (s : Nat) (m : MsgSvr) :
    (sendMsg svr s m).calls = svr.calls := rfl

@[simp] theorem sendMsg_tickets (svr : Server) (s : Nat) (m : MsgSvr) :
    (sendMsg svr s m).tickets = svr.tickets := rfl

@[simp] theorem sendMsg_sent (svr : Server) (s : Nat) (m : MsgSvr) :
    ((sendMsg svr s m).mem s).sent = (svr.mem s).sent ++ [m] := by
  simp [sendMsg]

@[simp] theorem sendMsg_accountId (svr : Server) (s p : Nat) (m : MsgSvr) :
    ((sendMsg svr s m).mem p).accountId = (svr.mem p).accountId := by
  by_cases h : p = s
  · subst h; simp [sendMsg]
  · simp [sendMsg, modify_mem_other _ _ _ _ h]

@[simp] theorem sendMsg_connClosed (svr : Server) (s p : Nat) (m : MsgSvr) :
    ((sendMsg svr s m).mem p).connClosed = (svr.mem p).connClosed := by
  by_cases h : p = s
  · subst h; simp [sendMsg]
  · simp [sendMsg, modify_mem_other _ _ _ _ h]

@[simp] theorem sendMsg_status (svr : Server) (s p : Nat) (m : MsgSvr) :
    ((sendMsg svr s m).mem p).status = (svr.mem p).status := by
  by_cases h : p = s
  · subst h; simp [sendMsg]
  · simp [sendMsg, modify_mem_other _ _ _ _ h]

/-! ## The registry keeps account ids exclusive -/

theorem exclusive_of_empty (svr : Server) (h : svr.sessions = []) : Exclusive svr := by
  intro a ha
  simp [h] at ha

theorem exclusive_trackSession (svr : Server) (sess : Nat) (add : Bool)
    (hex : Exclusive svr) (hfresh : add = true → (svr.mem sess).accountId = 0) :
    Exclusive (trackSession svr sess add) := by
  cases add with
  | false =>
    intro a ha b hb hab hne
    simp only [trackSession, Bool.false_eq_true, if_false, List.mem_filter] at ha hb
    exact hex a ha.1 b hb.1 hab hne
  | true =>
    have hz := hfresh rfl
    intro a ha b hb hab hne
    simp only [trackSession, if_true, List.mem_insert_iff] at ha hb
    change (svr.mem a).accountId ≠ 0 at hne
    change (svr.mem a).accountId ≠ (svr.mem b).accountId
    rcases ha with rfl | ha
    · exact absurd hz hne
    · rcases hb with rfl | hb
      · rw [hz]; exact hne
      · exact hex a ha b hb hab hne

theorem controlAccount_none (env : Env) (svr : Server) (accountId : Int)
    (h : (env.rangeSessions.order svr.sessions).find?
      (fun sess => (svr.mem sess).accountId == accountId) = none) :
    ∀ p ∈ svr.sessions, (svr.mem p).accountId ≠ accountId := by
  intro p hp
  have hp2 : p ∈ env.rangeSessions.order svr.sessions :=
    (env.rangeSessions.perm svr.sessions).mem_iff.mpr hp
  have := List.find?_eq_none.mp h p hp2
  simpa using this

theorem controlAccount_some (env : Env) (svr : Server) (accountId : Int) (t : Nat)
    (h : (env.rangeSessions.order svr.sessions).find?
      (fun sess => (svr.mem sess).accountId == accountId) = some t) :
    t ∈ svr.sessions ∧ (svr.mem t).accountId = accountId := by
  have h1 := List.find?_some h
  have h2 := List.mem_of_find?_eq_some h
  exact ⟨(env.rangeSessions.perm svr.sessions).mem_iff.mp h2, by simpa using h1⟩

theorem exclusive_controlAccount (env : Env) (svr : Server) (s : Nat) (accountId : Int)
    (hex : Exclusive svr) : Exclusive (controlAccount env svr s accountId).1 := by
  unfold controlAccount
  split
  · rename_i t ht
    intro a ha b hb hab hne
    have key : ∀ p, ((svr.modify t (fun x => { x with connClosed := true })).mem p).accountId
        = (svr.mem p).accountId := by
      intro p
      by_cases hp : p = t
      · subst hp; simp
      · simp [modify_mem_other _ _ _ _ hp]
    simp only [modify_sessions] at ha hb
    simp only [key] at hne ⊢
    exact hex a ha b hb hab hne
  · rename_i hnone
    have hfree := controlAccount_none env svr accountId hnone
    intro a ha b hb hab hne
    simp only [modify_sessions] at ha hb
    by_cases has : a = s
    · subst has
      have hbs : b ≠ a := fun h => hab h.symm
      simp only [modify_mem_same, modify_mem_other _ _ _ _ hbs]
      exact fun h => hfree b hb h.symm
    · by_cases hbs : b = s
      · subst hbs
        simp only [modify_mem_same, modify_mem_other _ _ _ _ has]
        exact hfree a ha
      · simp only [modify_mem_other _ _ _ _ has, modify_mem_other _ _ _ _ hbs] at hne ⊢
        exact hex a ha b hb hab hne

/-- C1. Registry exclusivity: in every registry state reachable from the empty
registry by tracking a fresh session, untracking a session and account claims,
no two distinct tracked sessions hold the same bound (non-zero) account id. -/
theorem registry_exclusive (svr : Server) (h : Reachable svr) :
    ∀ a ∈ svr.sessions, ∀ b ∈ svr.sessions, a ≠ b →
      (svr.mem a).accountId ≠ 0 → (svr.mem a).accountId ≠ (svr.mem b).accountId := by
  have hex : Exclusive svr := by
    induction h with
    | empty svr h => exact exclusive_of_empty svr h
    | add svr sess _ hfresh ih => exact exclusive_trackSession svr sess true ih (fun _ => hfresh)
    | remove svr sess _ ih =>
      exact exclusive_trackSession svr sess false ih (fun h => absurd h (by decide))
    | claim env svr sess accountId _ ih => exact exclusive_controlAccount env svr sess accountId ih
  exact hex

theorem registry12_reachable : Reachable registry12 := by
  unfold registry12
  apply Reachable.claim
  apply Reachable.claim
  apply Reachable.add
  · apply Reachable.add
    · exact Reachable.empty _ rfl
    · rfl
  · rfl

/-- Witness for C1: in `registry12` both sessions are tracked and bound, to
accounts 7 and 8. -/
theorem registry_exclusive_witness :
    Reachable registry12 ∧ registry12.sessions = [2, 1] ∧
      (registry12.mem 1).accountId = 7 ∧ (registry12.mem 2).accountId = 8 ∧
      ∀ a ∈ registry12.sessions, ∀ b ∈ registry12.sessions, a ≠ b →
        (registry12.mem a).accountId ≠ 0 →
        (registry12.mem a).accountId ≠ (registry12.mem b).accountId :=
  ⟨registry12_reachable, by decide, by decide, by decide,
    registry_exclusive registry12 registry12_reachable⟩

/-! ## The login sequence -/

@[simp] theorem sentBy_self (svr : Server) (s : Nat) : sentBy svr svr s = [] := by
  simp [sentBy]

theorem sentBy_of_append (before after : Server) (s : Nat) (new : List MsgSvr)
    (h : (after.mem s).sent = (before.mem s).sent ++ new) : sentBy before after s = new := by
  simp [sentBy, h]

theorem passesGates_version (env : Env) (x : session) (account : Account) (user : User)
    (h : PassesGates env x account user) : ¬ (x.version.Major ≠ 1 ∨ x.version.Minor < 29) := by
  obtain ⟨h1, h2, _⟩ := h
  simp [h1, not_lt.mpr h2]

/-- The run of `login` when the gates pass and the range loop of
`controlAccount` stops at the tracked session `h`. -/
theorem login_eq_conflict (env : Env) (svr : Server) (s h : Nat) (account : Account)
    (user : User) (hg : PassesGates env (svr.mem s) account user)
    (hfind : (env.rangeSessions.order svr.sessions).find?
      (fun sess => (svr.mem sess).accountId == account.Id) = some h) :
    login env svr s =
      (sendMsg
        (((svr.call (.Account (.AccountNameEQ (svr.mem s).credential.Username))).call
          (.User (.UserIdEQ account.UserId))).modify h (fun x => { x with connClosed := true }))
        s (.AccountLoginError .AlreadyLogged ""), .error .errEndOfService) := by
  have hv := passesGates_version env _ account user hg
  obtain ⟨_, _, h3, password, h4, h5, h6, h7⟩ := hg
  simp [login, hv, h3, h4, h5, h6, h7, controlAccount, hfind]

/-- The run of `login` when the gates pass and no tracked session holds the
account id. -/
theorem login_eq_free (env : Env) (svr : Server) (s : Nat) (account : Account)
    (user : User) (hg : PassesGates env (svr.mem s) account user)
    (hfind : (env.rangeSessions.order svr.sessions).find?
      (fun sess => (svr.mem sess).accountId == account.Id) = none) :
    login env svr s =
      (let svr3 := ((svr.call (.Account (.AccountNameEQ (svr.mem s).credential.Username))).call
          (.User (.UserIdEQ account.UserId))).modify s (fun x => { x with accountId := account.Id })
       let svr6 := sendMsg (sendMsg (sendMsg svr3 s (.AccountPseudo user.Nickname)) s
          (.AccountCommunity user.Community)) s (.AccountSecretQuestion user.Question)
       match env.Deserialize svr.hosts with
       | .error err => (svr6, .error err)
       | .ok hosts =>
         ((sendMsg (sendMsg svr6 s (.AccountHosts hosts)) s
            (.AccountLoginSuccess account.Admin)).modify s
            (fun x => { x with status := .statusIdle }), .ok ())) := by
  have hv := passesGates_version env _ account user hg
  obtain ⟨_, _, h3, password, h4, h5, h6, h7⟩ := hg
  simp [login, hv, h3, h4, h5, h6, h7, controlAccount, hfind]

theorem find_none_of_free (env : Env) (svr : Server) (accountId : Int)
    (hfree : ∀ p ∈ svr.sessions, (svr.mem p).accountId ≠ accountId) :
    (env.rangeSessions.order svr.sessions).find?
      (fun sess => (svr.mem sess).accountId == accountId) = none := by
  rw [List.find?_eq_none]
  intro p hp
  have := hfree p ((env.rangeSessions.perm svr.sessions).mem_iff.mp hp)
  simpa using this

theorem find_some_of_held (env : Env) (svr : Server) (accountId : Int) (t : Nat)
    (ht : t ∈ svr.sessions) (hta : (svr.mem t).accountId = accountId) :
    ∃ h, (env.rangeSessions.order svr.sessions).find?
      (fun sess => (svr.mem sess).accountId == accountId) = some h := by
  cases hf : (env.rangeSessions.order svr.sessions).find?
      (fun sess => (svr.mem sess).accountId == accountId) with
  | some h => exact ⟨h, rfl⟩
  | none => exact absurd hta (controlAccount_none env svr accountId hf t ht)

theorem passesGates_env0 :
    PassesGates env0 sessQueue
      { Id := 7, UserId := "u1", Admin := false, SubscribedUntil := 0 }
      { Id := "u1", Hash := "h", Nickname := "al", Community := 0, Question := "q" } :=
  ⟨rfl, by decide, rfl, "secret", rfl, rfl, rfl, rfl⟩

theorem passesGates_envBadHosts :
    PassesGates envBadHosts sessQueue
      { Id := 7, UserId := "u1", Admin := false, SubscribedUntil := 0 }
      { Id := "u1", Hash := "h", Nickname := "al", Community := 0, Question := "q" } :=
  ⟨rfl, by decide, rfl, "secret", rfl, rfl, rfl, rfl⟩

/-- C2, as the code has it. When the gates of `login` pass and a tracked
session `t` already holds the account id, `login` closes the connection of a
tracked holder (of `t` itself whenever the registry is exclusive and the id is a
bound, non-zero one), sends the claimant the already-logged-in error and nothing
else, changes no session's account id, and returns the end-of-service signal.
Hence a claimant that did not hold the account is still not bound to it, and a
claimant that is itself the holder stays bound to it. -/
theorem login_already_logged (env : Env) (svr : Server) (s t : Nat) (account : Account)
    (user : User) (hg : PassesGates env (svr.mem s) account user)
    (ht : t ∈ svr.sessions) (hta : (svr.mem t).accountId = account.Id) :
    (∃ h ∈ svr.sessions, (svr.mem h).accountId = account.Id ∧
      ((login env svr s).1.mem h).connClosed = true ∧
      ∀ p, p ≠ h → ((login env svr s).1.mem p).connClosed = (svr.mem p).connClosed) ∧
    (Exclusive svr → account.Id ≠ 0 → ((login env svr s).1.mem t).connClosed = true) ∧
    sentBy svr (login env svr s).1 s = [.AccountLoginError .AlreadyLogged ""] ∧
    (∀ p, ((login env svr s).1.mem p).accountId = (svr.mem p).accountId) ∧
    ((svr.mem s).accountId ≠ account.Id →
      ((login env svr s).1.mem s).accountId ≠ account.Id) ∧
    ((svr.mem s).accountId = account.Id →
      ((login env svr s).1.mem s).accountId = account.Id) ∧
    (login env svr s).2 = .error .errEndOfService := by
  obtain ⟨h, hfind⟩ := find_some_of_held env svr account.Id t ht hta
  obtain ⟨hmem, hacc⟩ := controlAccount_some env svr account.Id h hfind
  have hlogin := login_eq_conflict env svr s h account user hg hfind
  have hclosed : ((login env svr s).1.mem h).connClosed = true := by
    rw [hlogin]; simp
  have hacct : ∀ p, ((login env svr s).1.mem p).accountId = (svr.mem p).accountId := by
    intro p
    rw [hlogin]
    by_cases hp : p = h
    · subst hp; simp
    · simp [modify_mem_other _ _ _ _ hp]
  refine ⟨⟨h, hmem, hacc, hclosed, ?_⟩, ?_, ?_, hacct, ?_, ?_, ?_⟩
  · intro p hp
    rw [hlogin]
    simp [modify_mem_other _ _ _ _ hp]
  · intro hex hne
    by_cases hth : t = h
    · rw [hth]; exact hclosed
    · exact absurd (hta.trans hacc.symm) (hex t ht h hmem hth (hta ▸ hne))
  · apply sentBy_of_append
    rw [hlogin]
    by_cases hp : s = h
    · subst hp; simp
    · simp [modify_mem_other _ _ _ _ hp]
  · intro hne
    rw [hacct s]
    exact hne
  · intro heq
    rw [hacct s]
    exact heq
  · rw [hlogin]

/-- Witness for C2 (amended): session 1 logs in to account 7 while the tracked session 2
holds it; session 2 is closed and session 1 gets the already-logged-in error. -/
theorem login_already_logged_witness :
    ((login env0 svrHeld 1).1.mem 2).connClosed = true ∧
      sentBy svrHeld (login env0 svrHeld 1).1 1 = [.AccountLoginError .AlreadyLogged ""] ∧
      ((login env0 svrHeld 1).1.mem 1).accountId = 0 ∧
      (login env0 svrHeld 1).2 = .error .errEndOfService :=
  have h := login_already_logged env0 svrHeld 1 2
    { Id := 7, UserId := "u1", Admin := false, SubscribedUntil := 0 }
    { Id := "u1", Hash := "h", Nickname := "al", Community := 0, Question := "q" }
    passesGates_env0 (by decide) rfl
  ⟨h.2.1 (by unfold Exclusive; decide) (by decide), h.2.2.1, (h.2.2.2.1 1).trans rfl,
    h.2.2.2.2.2.2⟩

theorem passesGates_svrSelf :
    PassesGates env0 (svrSelf.mem 1)
      { Id := 7, UserId := "u1", Admin := false, SubscribedUntil := 0 }
      { Id := "u1", Hash := "h", Nickname := "al", Community := 0, Question := "q" } :=
  ⟨rfl, by decide, rfl, "secret", rfl, rfl, rfl, rfl⟩

/-- Counterexample to C2 as stated: session 1 of `svrSelf` passes every gate of
`login` for account 7 and a tracked session, session 1 itself, is already bound
to account 7; `login` closes session 1's own connection, sends it the
already-logged-in error and returns the end-of-service signal, and the claimant
is still bound to account 7 afterwards. -/
theorem login_already_logged_counterexample :
    PassesGates env0 (svrSelf.mem 1)
        { Id := 7, UserId := "u1", Admin := false, SubscribedUntil := 0 }
        { Id := "u1", Hash := "h", Nickname := "al", Community := 0, Question := "q" } ∧
      1 ∈ svrSelf.sessions ∧ (svrSelf.mem 1).accountId = 7 ∧
      ((login env0 svrSelf 1).1.mem 1).connClosed = true ∧
      sentBy svrSelf (login env0 svrSelf 1).1 1 = [.AccountLoginError .AlreadyLogged ""] ∧
      (login env0 svrSelf 1).2 = .error .errEndOfService ∧
      ((login env0 svrSelf 1).1.mem 1).accountId = 7 :=
  ⟨passesGates_svrSelf, by decide, by decide, by decide, by decide, rfl, by decide⟩

/-- C3, as the code has it. When the gates of `login` pass and no tracked
session holds the account id: if the cached host list deserializes, `login`
binds the account id to the session, sends exactly nickname, community id,
secret question, host list and login-success (authorized = the admin flag), in
this order, sets the status to Idle and returns success; if the cached host list
does not deserialize, `login` returns that error after binding the account id
and sending the first three messages only, and the status is unchanged. -/
theorem login_success (env : Env) (svr : Server) (s : Nat) (account : Account) (user : User)
    (hg : PassesGates env (svr.mem s) account user)
    (hfree : ∀ p ∈ svr.sessions, (svr.mem p).accountId ≠ account.Id) :
    (∀ hosts, env.Deserialize svr.hosts = .ok hosts →
      ((login env svr s).1.mem s).accountId = account.Id ∧
      sentBy svr (login env svr s).1 s =
        [.AccountPseudo user.Nickname, .AccountCommunity user.Community,
         .AccountSecretQuestion user.Question, .AccountHosts hosts,
         .AccountLoginSuccess account.Admin] ∧
      ((login env svr s).1.mem s).status = .statusIdle ∧
      (login env svr s).2 = .ok ()) ∧
    (∀ err, env.Deserialize svr.hosts = .error err →
      ((login env svr s).1.mem s).accountId = account.Id ∧
      sentBy svr (login env svr s).1 s =
        [.AccountPseudo user.Nickname, .AccountCommunity user.Community,
         .AccountSecretQuestion user.Question] ∧
      ((login env svr s).1.mem s).status = (svr.mem s).status ∧
      (login env svr s).2 = .error err) := by
  have hlogin := login_eq_free env svr s account user hg
    (find_none_of_free env svr account.Id hfree)
  constructor
  · intro hosts hh
    rw [hlogin]
    simp only [hh]
    refine ⟨by simp [sendMsg], ?_, by simp, trivial⟩
    apply sentBy_of_append
    simp [sendMsg]
  · intro err hh
    rw [hlogin]
    simp only [hh]
    refine ⟨by simp, ?_, by simp, trivial⟩
    apply sentBy_of_append
    simp [sendMsg]

/-- Witness for C3 (amended): the only tracked session logs in to the free
account 7 and receives the five messages. -/
theorem login_success_witness :
    ((login env0 svrQueue 1).1.mem 1).accountId = 7 ∧
      sentBy svrQueue (login env0 svrQueue 1).1 1 =
        [.AccountPseudo "al", .AccountCommunity 0, .AccountSecretQuestion "q",
         .AccountHosts { Value := [] }, .AccountLoginSuccess false] ∧
      ((login env0 svrQueue 1).1.mem 1).status = .statusIdle ∧
      (login env0 svrQueue 1).2 = .ok () :=
  (login_success env0 svrQueue 1
    { Id := 7, UserId := "u1", Admin := false, SubscribedUntil := 0 }
    { Id := "u1", Hash := "h", Nickname := "al", Community := 0, Question := "q" }
    passesGates_env0 (by decide)).1 { Value := [] } rfl

/-- Counterexample to C3 as stated: every listed gate passes and no tracked
session holds account 7, yet the cached host list does not deserialize, so
`login` sends three messages, returns an error and leaves the status as it
was. -/
theorem login_success_counterexample :
    PassesGates envBadHosts (svrQueue.mem 1)
        { Id := 7, UserId := "u1", Admin := false, SubscribedUntil := 0 }
        { Id := "u1", Hash := "h", Nickname := "al", Community := 0, Question := "q" } ∧
      (∀ p ∈ svrQueue.sessions, (svrQueue.mem p).accountId ≠ 7) ∧
      sentBy svrQueue (login envBadHosts svrQueue 1).1 1 =
        [.AccountPseudo "al", .AccountCommunity 0, .AccountSecretQuestion "q"] ∧
      (login envBadHosts svrQueue 1).2 = .error (.other "invalid hosts") ∧
      ((login envBadHosts svrQueue 1).1.mem 1).status = .statusExpectingQueuePosition :=
  ⟨passesGates_envBadHosts, by decide, by decide, rfl, by decide⟩

/-- Every run of `login` that fails before the registry claim leaves the
registry, every account id, every connection and every status as they were, and
sends the bad-version error exactly when the version gate rejects. -/
theorem login_fail_frame (env : Env) (svr : Server) (s : Nat)
    (h : ¬ ∃ account user, PassesGates env (svr.mem s) account user) :
    (login env svr s).1.sessions = svr.sessions ∧
    (∀ p, ((login env svr s).1.mem p).accountId = (svr.mem p).accountId ∧
      ((login env svr s).1.mem p).connClosed = (svr.mem p).connClosed ∧
      ((login env svr s).1.mem p).status = (svr.mem p).status) ∧
    ((∃ extra, MsgSvr.AccountLoginError .BadVersion extra ∈ sentBy svr (login env svr s).1 s) ↔
      ((svr.mem s).version.Major ≠ 1 ∨ (svr.mem s).version.Minor < 29)) := by
  by_cases hv : (svr.mem s).version.Major ≠ 1 ∨ (svr.mem s).version.Minor < 29
  · simp only [login, hv, if_true]
    split <;> simp [sentBy]
  by_cases hc : (svr.mem s).credential.CryptoMethod ≠ 1
  · simp [login, hv, hc]
  cases hd : env.decryptedPassword (svr.mem s).credential.Hash (svr.mem s).salt with
  | error e => simp [login, hv, hc, hd]
  | ok password =>
    cases ha : env.svc.Account (.AccountNameEQ (svr.mem s).credential.Username) with
    | error e => simp [login, hv, hc, hd, ha, sentBy]
    | ok account =>
      cases hu : env.svc.User (.UserIdEQ account.UserId) with
      | error e => simp [login, hv, hc, hd, ha, hu, sentBy]
      | ok user =>
        cases hm : env.ComparePasswordAndHash password user.Hash with
        | error e => simp [login, hv, hc, hd, ha, hu, hm, sentBy]
        | ok b =>
          cases b with
          | false => simp [login, hv, hc, hd, ha, hu, hm, sentBy]
          | true =>
            refine absurd ⟨account, user, ?_, ?_, ?_, password, hd, ha, hu, hm⟩ h
            · by_contra h1; exact hv (Or.inl h1)
            · by_contra h2; exact hv (Or.inr (not_le.mp h2))
            · by_contra h3; exact hc h3

/-- A run of `login` that passes the gates leaves the session's status as it
was or sets it to Idle, and sends no bad-version error. -/
theorem login_pass_frame (env : Env) (svr : Server) (s : Nat) (account : Account)
    (user : User) (hg : PassesGates env (svr.mem s) account user) :
    (((login env svr s).1.mem s).status = (svr.mem s).status ∨
      ((login env svr s).1.mem s).status = .statusIdle) ∧
    ∀ extra, MsgSvr.AccountLoginError .BadVersion extra ∉ sentBy svr (login env svr s).1 s := by
  cases hf : (env.rangeSessions.order svr.sessions).find?
      (fun sess => (svr.mem sess).accountId == account.Id) with
  | some h =>
    rw [login_eq_conflict env svr s h account user hg hf]
    have hsent : ((sendMsg (((svr.call (.Account (.AccountNameEQ
        (svr.mem s).credential.Username))).call (.User (.UserIdEQ account.UserId))).modify h
        (fun x => { x with connClosed := true })) s
        (.AccountLoginError .AlreadyLogged "")).mem s).sent
        = (svr.mem s).sent ++ [.AccountLoginError .AlreadyLogged ""] := by
      by_cases hp : s = h
      · subst hp; simp
      · simp [modify_mem_other _ _ _ _ hp]
    constructor
    · left
      by_cases hp : s = h
      · subst hp; simp
      · simp [modify_mem_other _ _ _ _ hp]
    · intro extra
      rw [sentBy_of_append _ _ _ _ hsent]
      simp
  | none =>
    rw [login_eq_free env svr s account user hg hf]
    cases hh : env.Deserialize svr.hosts with
    | error e =>
      constructor
      · left; simp
      · intro extra
        rw [sentBy_of_append _ _ s [.AccountPseudo user.Nickname,
          .AccountCommunity user.Community, .AccountSecretQuestion user.Question]
          (by simp [sendMsg])]
        simp
    | ok hosts =>
      constructor
      · right; simp
      · intro extra
        rw [sentBy_of_append _ _ s [.AccountPseudo user.Nickname,
          .AccountCommunity user.Community, .AccountSecretQuestion user.Question,
          .AccountHosts hosts, .AccountLoginSuccess account.Admin]
          (by simp [sendMsg])]
        simp

/-- C4. Version gate: `login` sends a bad-version error exactly when the stored
version has major ≠ 1 or minor < 29; in that case the only effect of `login` is
that one message, with extra text "^1.29.0": it returns a non-nil error, makes
no repository call, and changes no registry membership, account id, connection
or ticket. -/
theorem login_version_gate (env : Env) (svr : Server) (s : Nat) :
    ((∃ extra, MsgSvr.AccountLoginError .BadVersion extra ∈ sentBy svr (login env svr s).1 s) ↔
      ((svr.mem s).version.Major ≠ 1 ∨ (svr.mem s).version.Minor < 29)) ∧
    (((svr.mem s).version.Major ≠ 1 ∨ (svr.mem s).version.Minor < 29) →
      (login env svr s).1 = sendMsg svr s (.AccountLoginError .BadVersion "^1.29.0") ∧
      sentBy svr (login env svr s).1 s = [.AccountLoginError .BadVersion "^1.29.0"] ∧
      (∃ err, (login env svr s).2 = .error err) ∧
      (login env svr s).1.calls = svr.calls ∧
      (login env svr s).1.sessions = svr.sessions ∧
      (login env svr s).1.tickets = svr.tickets ∧
      ∀ p, ((login env svr s).1.mem p).accountId = (svr.mem p).accountId ∧
        ((login env svr s).1.mem p).connClosed = (svr.mem p).connClosed) := by
  constructor
  · by_cases hp : ∃ account user, PassesGates env (svr.mem s) account user
    · obtain ⟨account, user, hg⟩ := hp
      have h1 := (login_pass_frame env svr s account user hg).2
      have h2 := passesGates_version env _ account user hg
      constructor
      · rintro ⟨extra, hex⟩
        exact absurd hex (h1 extra)
      · intro hv
        exact absurd hv h2
    · exact (login_fail_frame env svr s hp).2.2
  · intro hv
    have hstate : (login env svr s).1 =
        sendMsg svr s (.AccountLoginError .BadVersion "^1.29.0") := by
      simp only [login, hv, if_true]
      split <;> rfl
    have herr : ∃ err, (login env svr s).2 = .error err := by
      simp only [login, hv, if_true]
      split
      · exact ⟨_, rfl⟩
      · exact ⟨_, rfl⟩
    refine ⟨hstate, ?_, herr, ?_, ?_, ?_, ?_⟩
    · rw [hstate]; simp [sentBy]
    · rw [hstate]; simp
    · rw [hstate]; simp
    · rw [hstate]; simp
    · intro p; rw [hstate]; simp

/-- Witness for C4: a session that announced 1.28.9 gets the bad-version error
and the end-of-service signal. -/
theorem login_version_gate_witness :
    sentBy svrOldVersion (login env0 svrOldVersion 1).1 1 =
        [.AccountLoginError .BadVersion "^1.29.0"] ∧
      (login env0 svrOldVersion 1).2 = .error .errEndOfService ∧
      (login env0 svrOldVersion 1).1.calls = [] :=
  ⟨((login_version_gate env0 svrOldVersion 1).2 (by decide)).2.1, rfl, by decide⟩

/-- C10. A failed login evicts nobody: when `login` fails at the version gate,
the crypto-method gate, password decoding, account lookup, user lookup or
password verification, the set of tracked sessions is unchanged, no connection
is closed and no session's account id changes. -/
theorem login_failure_evicts_nobody (env : Env) (svr : Server) (s : Nat)
    (h : ¬ ∃ account user, PassesGates env (svr.mem s) account user) :
    (login env svr s).1.sessions = svr.sessions ∧
    ∀ p, ((login env svr s).1.mem p).connClosed = (svr.mem p).connClosed ∧
      ((login env svr s).1.mem p).accountId = (svr.mem p).accountId := by
  have hf := login_fail_frame env svr s h
  exact ⟨hf.1, fun p => ⟨(hf.2.1 p).2.1, (hf.2.1 p).1⟩⟩

theorem not_passesGates_wrongPassword :
    ¬ ∃ account user, PassesGates envWrongPassword (svrHeld.mem 1) account user := by
  rintro ⟨account, user, _, _, _, password, hd, _, hu, hm⟩
  have hd2 : password = "wrong" := by
    simp only [envWrongPassword] at hd
    injection hd with hd
    exact hd.symm
  subst hd2
  simp only [envWrongPassword, env0] at hm
  injection hm with hm
  revert hm
  decide

/-- Witness for C10: session 1 submits a wrong password for account 7, which
the tracked session 2 holds; session 2 stays open and bound. -/
theorem login_failure_evicts_nobody_witness :
    ((login envWrongPassword svrHeld 1).1.mem 2).connClosed = false ∧
      ((login envWrongPassword svrHeld 1).1.mem 2).accountId = 7 ∧
      (login envWrongPassword svrHeld 1).1.sessions = [2, 1] :=
  have h := login_failure_evicts_nobody envWrongPassword svrHeld 1
    not_passesGates_wrongPassword
  ⟨(h.2 2).1.trans rfl, (h.2 2).2.trans rfl, h.1.trans rfl⟩

/-- C5, as the code has it. For a session awaiting the queue acknowledgement
with an accepted version, crypto method 1, a decodable password and an existing
account and user, when the decoded password fails verification the messages
sent while handling the queue-position request are the queue notice
(position 1, total subscribers 0, total non-subscribers 1, not a subscriber,
queue id 0) followed by exactly one access-denied login error, and the handler
returns the end-of-service signal. -/
theorem queuePosition_wrong_password (env : Env) (svr : Server) (s : Nat) (password : String)
    (account : Account) (user : User)
    (hst : (svr.mem s).status = .statusExpectingQueuePosition)
    (h1 : (svr.mem s).version.Major = 1) (h2 : 29 ≤ (svr.mem s).version.Minor)
    (h3 : (svr.mem s).credential.CryptoMethod = 1)
    (hd : env.decryptedPassword (svr.mem s).credential.Hash (svr.mem s).salt = .ok password)
    (ha : env.svc.Account (.AccountNameEQ (svr.mem s).credential.Username) = .ok account)
    (hu : env.svc.User (.UserIdEQ account.UserId) = .ok user)
    (hm : env.ComparePasswordAndHash password user.Hash = .ok false) :
    sentBy svr (handleAccountQueuePosition env svr s).1 s =
      [.AccountNewQueue 1 0 1 false 0, .AccountLoginError .AccessDenied ""] ∧
    (handleAccountQueuePosition env svr s).2 = .error .errEndOfService := by
  have hmem : (sendMsg svr s (.AccountNewQueue 1 0 1 false 0)).mem s =
      { svr.mem s with sent := (svr.mem s).sent ++ [.AccountNewQueue 1 0 1 false 0] } := by
    simp [sendMsg]
  have h2n : ¬ (svr.mem s).version.Minor < 29 := not_lt.mpr h2
  simp [handleAccountQueuePosition, hst, login, hmem, h1, h2n, h3, hd, ha, hu, hm, sentBy,
    sendMsg]

/-- Witness for C5 (amended): the wrong password at `svrQueue`. -/
theorem queuePosition_wrong_password_witness :
    sentBy svrQueue (handleAccountQueuePosition envWrongPassword svrQueue 1).1 1 =
        [.AccountNewQueue 1 0 1 false 0, .AccountLoginError .AccessDenied ""] ∧
      (handleAccountQueuePosition envWrongPassword svrQueue 1).2 = .error .errEndOfService :=
  queuePosition_wrong_password envWrongPassword svrQueue 1 "wrong"
    { Id := 7, UserId := "u1", Admin := false, SubscribedUntil := 0 }
    { Id := "u1", Hash := "h", Nickname := "al", Community := 0, Question := "q" }
    rfl rfl (by decide) rfl rfl rfl rfl rfl

/-- Counterexample to C5 as stated: the session awaits the queue
acknowledgement, its version and crypto method are accepted, the password
decodes, account and user exist and verification answers "no match"; the
messages sent are not the access-denied error alone, the queue notice comes
first. -/
theorem queuePosition_wrong_password_counterexample :
    (svrQueue.mem 1).status = .statusExpectingQueuePosition ∧
      envWrongPassword.ComparePasswordAndHash "wrong" "h" = .ok false ∧
      sentBy svrQueue (handleAccountQueuePosition envWrongPassword svrQueue 1).1 1 ≠
        [.AccountLoginError .AccessDenied ""] ∧
      (sentBy svrQueue (handleAccountQueuePosition envWrongPassword svrQueue 1).1 1).head? =
        some (.AccountNewQueue 1 0 1 false 0) :=
  ⟨by decide, rfl, by decide, by decide⟩

/-! ## Server selection -/

theorem setServer_success (env : Env) (svr : Server) (s : Nat) (m : AccountSetServer)
    (gameServer : GameServer) (ticketId : String)
    (h : SetServerSucceeds env svr s m gameServer ticketId) :
    handleAccountSetServer env svr s m =
      (sendMsg
        { ((svr.call (.GameServer (.GameServerIdEQ m.Id))).call
            (.CreateTicket (ticketFor env svr s m ticketId))) with
          tickets := svr.tickets ++ [ticketFor env svr s m ticketId] }
        s (.AccountSelectServerPlainSuccess gameServer.Host gameServer.Port ticketId),
        .error .errEndOfService) := by
  obtain ⟨h1, h2, stored, h3⟩ := h
  simp only [ticketFor] at h3
  simp [handleAccountSetServer, h1, h2, h3, ticketFor, Server.call]

theorem setServer_failure (env : Env) (svr : Server) (s : Nat) (m : AccountSetServer)
    (h : ¬ ∃ gameServer ticketId, SetServerSucceeds env svr s m gameServer ticketId) :
    (∃ err, (handleAccountSetServer env svr s m).2 = .error err) ∧
    (handleAccountSetServer env svr s m).1.tickets = svr.tickets ∧
    (handleAccountSetServer env svr s m).1.mem = svr.mem := by
  cases h1 : env.svc.GameServer (.GameServerIdEQ m.Id) with
  | error e => simp [handleAccountSetServer, h1]
  | ok gameServer =>
    cases h2 : env.NewV4 with
    | error e => simp [handleAccountSetServer, h1, h2]
    | ok ticketId =>
      cases h3 : env.svc.CreateTicket (ticketFor env svr s m ticketId) with
      | error e =>
        simp only [ticketFor] at h3
        simp [handleAccountSetServer, h1, h2, h3]
      | ok stored => exact absurd ⟨gameServer, ticketId, h1, h2, stored, h3⟩ h

/-- C6. `handleAccountSetServer` always returns a non-nil error. When the
game-server lookup, the ticket-id generation and the ticket creation succeed,
exactly one ticket is stored, with the session's account id and the requested
game-server id, the repository is called exactly for the lookup and that
creation, and the single message sent is select-server success with the
server's host and port and the stored ticket's id. When one of the three steps
fails, no ticket is stored and no message is sent. -/
theorem setServer_ticket (env : Env) (svr : Server) (s : Nat) (m : AccountSetServer) :
    (∃ err, (handleAccountSetServer env svr s m).2 = .error err) ∧
    (∀ gameServer ticketId, SetServerSucceeds env svr s m gameServer ticketId →
      (handleAccountSetServer env svr s m).1.tickets =
        svr.tickets ++ [{ Id := ticketId, AccountId := (svr.mem s).accountId,
                          GameServerId := m.Id, Created := env.now }] ∧
      (handleAccountSetServer env svr s m).1.calls =
        svr.calls ++ [.GameServer (.GameServerIdEQ m.Id),
          .CreateTicket { Id := ticketId, AccountId := (svr.mem s).accountId,
                          GameServerId := m.Id, Created := env.now }] ∧
      sentBy svr (handleAccountSetServer env svr s m).1 s =
        [.AccountSelectServerPlainSuccess gameServer.Host gameServer.Port ticketId] ∧
      (handleAccountSetServer env svr s m).2 = .error .errEndOfService) ∧
    ((¬ ∃ gameServer ticketId, SetServerSucceeds env svr s m gameServer ticketId) →
      (handleAccountSetServer env svr s m).1.tickets = svr.tickets ∧
      sentBy svr (handleAccountSetServer env svr s m).1 s = []) := by
  refine ⟨?_, ?_, ?_⟩
  · by_cases h : ∃ gameServer ticketId, SetServerSucceeds env svr s m gameServer ticketId
    · obtain ⟨gameServer, ticketId, h⟩ := h
      exact ⟨_, by rw [setServer_success env svr s m gameServer ticketId h]⟩
    · exact (setServer_failure env svr s m h).1
  · intro gameServer ticketId h
    rw [setServer_success env svr s m gameServer ticketId h]
    refine ⟨by simp [ticketFor], by simp [ticketFor, Server.call], ?_, rfl⟩
    apply sentBy_of_append
    simp [sendMsg, Server.call]
  · intro h
    have hf := setServer_failure env svr s m h
    refine ⟨hf.2.1, ?_⟩
    simp [sentBy, hf.2.2]

/-- Witness for C6: the idle session 2 of `svrHeld`, bound to account 7, selects
game server 3. -/
theorem setServer_ticket_witness :
    (handleAccountSetServer env0 svrHeld 2 { Id := 3 }).1.tickets =
        [{ Id := "t1", AccountId := 7, GameServerId := 3, Created := 0 }] ∧
      sentBy svrHeld (handleAccountSetServer env0 svrHeld 2 { Id := 3 }).1 2 =
        [.AccountSelectServerPlainSuccess "h3" "443" "t1"] ∧
      (handleAccountSetServer env0 svrHeld 2 { Id := 3 }).2 = .error .errEndOfService :=
  have h := (setServer_ticket env0 svrHeld 2 { Id := 3 }).2.1
    { Id := 3, Host := "h3", Port := "443" } "t1" ⟨rfl, rfl, _, rfl⟩
  ⟨h.1, h.2.2.1, h.2.2.2⟩

/-- C9, as the code has it. `handleAccountSetServer` does not look at whether
the session is bound: for a session with no bound account id (account id 0),
when the game-server lookup, the ticket-id generation and the ticket creation
succeed it stores one ticket, with account id 0 and the requested game-server
id, and sends select-server success; no ticket is stored and no message is sent
when one of the three steps fails. -/
theorem setServer_unbound (env : Env) (svr : Server) (s : Nat) (m : AccountSetServer)
    (hz : (svr.mem s).accountId = 0) :
    (∀ gameServer ticketId, SetServerSucceeds env svr s m gameServer ticketId →
      (handleAccountSetServer env svr s m).1.tickets =
        svr.tickets ++ [{ Id := ticketId, AccountId := 0, GameServerId := m.Id,
                          Created := env.now }] ∧
      sentBy svr (handleAccountSetServer env svr s m).1 s =
        [.AccountSelectServerPlainSuccess gameServer.Host gameServer.Port ticketId]) ∧
    ((¬ ∃ gameServer ticketId, SetServerSucceeds env svr s m gameServer ticketId) →
      (handleAccountSetServer env svr s m).1.tickets = svr.tickets ∧
      sentBy svr (handleAccountSetServer env svr s m).1 s = []) := by
  constructor
  · intro gameServer ticketId h
    rw [setServer_success env svr s m gameServer ticketId h]
    constructor
    · simp [ticketFor, hz]
    · apply sentBy_of_append
      simp [sendMsg, Server.call]
  · intro h
    have hf := setServer_failure env svr s m h
    refine ⟨hf.2.1, ?_⟩
    simp [sentBy, hf.2.2]

/-- Witness for C9 (amended): session 1 of `svrQueue` has never logged in. -/
theorem setServer_unbound_witness :
    (svrQueue.mem 1).accountId = 0 ∧
      (handleAccountSetServer env0 svrQueue 1 { Id := 3 }).1.tickets =
        [{ Id := "t1", AccountId := 0, GameServerId := 3, Created := 0 }] ∧
      sentBy svrQueue (handleAccountSetServer env0 svrQueue 1 { Id := 3 }).1 1 =
        [.AccountSelectServerPlainSuccess "h3" "443" "t1"] :=
  ⟨by decide, (setServer_unbound env0 svrQueue 1 { Id := 3 } (by decide)).1
    { Id := 3, Host := "h3", Port := "443" } "t1" ⟨rfl, rfl, _, rfl⟩⟩

/-- Counterexample to C9 as stated: session 1 of `svrQueue` has no bound account
id, and handling its select-server request stores a ticket and sends
select-server success. -/
theorem setServer_unbound_counterexample :
    (svrQueue.mem 1).accountId = 0 ∧
      (handleAccountSetServer env0 svrQueue 1 { Id := 3 }).1.tickets ≠ svrQueue.tickets ∧
      MsgSvr.AccountSelectServerPlainSuccess "h3" "443" "t1" ∈
        sentBy svrQueue (handleAccountSetServer env0 svrQueue 1 { Id := 3 }).1 1 :=
  ⟨by decide, by decide, by decide⟩

/-! ## The status never regresses in the queue, directory and ticket handlers -/

theorem login_status (env : Env) (svr : Server) (s : Nat) :
    ((login env svr s).1.mem s).status = (svr.mem s).status ∨
      ((login env svr s).1.mem s).status = .statusIdle := by
  by_cases hp : ∃ account user, PassesGates env (svr.mem s) account user
  · obtain ⟨account, user, hg⟩ := hp
    exact (login_pass_frame env svr s account user hg).1
  · exact Or.inl ((login_fail_frame env svr s hp).2.1 s).2.2

theorem rank_le_idle (st : Status) : st.rank ≤ Status.statusIdle.rank := by
  cases st <;> decide

theorem queuePosition_status (env : Env) (svr : Server) (s : Nat) :
    (svr.mem s).status.rank ≤ ((handleAccountQueuePosition env svr s).1.mem s).status.rank := by
  unfold handleAccountQueuePosition
  simp only
  split
  · rcases login_status env (sendMsg svr s (.AccountNewQueue 1 0 1 false 0)) s with h | h
    · rw [h, sendMsg_status]
    · rw [h]; exact rank_le_idle _
  · rw [sendMsg_status]

theorem countAccounts_mem (env : Env) (svr : Server) (serverIdQty : List (Int × Int))
    (accounts : List Account) :
    (countAccounts env svr serverIdQty accounts).1.mem = svr.mem := by
  induction accounts generalizing svr serverIdQty with
  | nil => rfl
  | cons account rest ih =>
    simp only [countAccounts]
    split
    · rfl
    · rw [ih]; rfl

theorem searchForFriend_status (env : Env) (svr : Server) (s : Nat)
    (m : AccountSearchForFriend) :
    ((handleAccountSearchForFriend env svr s m).1.mem s).status = (svr.mem s).status := by
  unfold handleAccountSearchForFriend
  simp only
  split
  · split <;> simp
  · split
    · simp
    · split
      · rename_i svr3 err heq
        have h3 := congrArg (fun r => r.1.mem) heq
        simp only [countAccounts_mem, call_mem] at h3
        simp [← h3]
      · rename_i svr3 serverIdQty heq
        have h3 := congrArg (fun r => r.1.mem) heq
        simp only [countAccounts_mem, call_mem] at h3
        simp [← h3]

theorem getServersList_status (env : Env) (svr : Server) (s : Nat) :
    ((handleAccountGetServersList env svr s).1.mem s).status = (svr.mem s).status := by
  unfold handleAccountGetServersList
  simp only
  split
  · simp
  · split <;> simp

theorem setServer_status (env : Env) (svr : Server) (s : Nat) (m : AccountSetServer) :
    ((handleAccountSetServer env svr s m).1.mem s).status = (svr.mem s).status := by
  by_cases h : ∃ gameServer ticketId, SetServerSucceeds env svr s m gameServer ticketId
  · obtain ⟨gameServer, ticketId, h⟩ := h
    rw [setServer_success env svr s m gameServer ticketId h]
    simp [Server.call]
  · rw [(setServer_failure env svr s m h).2.2]

/-- C8, as the code has it. With the statuses ordered AwaitingVersion <
AwaitingCredential < AwaitingQueueAck < Idle: `handleAccountQueuePosition`,
`handleAccountSearchForFriend`, `handleAccountGetServersList` and
`handleAccountSetServer` never lower the session's status, whatever the session
state. `handleAccountVersion` stores AwaitingCredential and
`handleAccountCredential` stores AwaitingQueueAck without looking at the current
status, so they do not lower it when it is at most the stored one. -/
theorem status_monotone (env : Env) (svr : Server) (s : Nat) (mv : AccountVersion)
    (mc : AccountCredential) (mf : AccountSearchForFriend) (ms : AccountSetServer) :
    (((handleAccountVersion svr s mv).1.mem s).status = .statusExpectingCredential ∧
      ((svr.mem s).status.rank ≤ Status.statusExpectingCredential.rank →
        (svr.mem s).status.rank ≤ ((handleAccountVersion svr s mv).1.mem s).status.rank)) ∧
    (((handleAccountCredential svr s mc).1.mem s).status = .statusExpectingQueuePosition ∧
      ((svr.mem s).status.rank ≤ Status.statusExpectingQueuePosition.rank →
        (svr.mem s).status.rank ≤ ((handleAccountCredential svr s mc).1.mem s).status.rank)) ∧
    (svr.mem s).status.rank ≤ ((handleAccountQueuePosition env svr s).1.mem s).status.rank ∧
    (svr.mem s).status.rank ≤
      ((handleAccountSearchForFriend env svr s mf).1.mem s).status.rank ∧
    (svr.mem s).status.rank ≤ ((handleAccountGetServersList env svr s).1.mem s).status.rank ∧
    (svr.mem s).status.rank ≤ ((handleAccountSetServer env svr s ms).1.mem s).status.rank := by
  have hv : ((handleAccountVersion svr s mv).1.mem s).status = .statusExpectingCredential := by
    simp [handleAccountVersion]
  have hc : ((handleAccountCredential svr s mc).1.mem s).status =
      .statusExpectingQueuePosition := by
    simp [handleAccountCredential]
  refine ⟨⟨hv, fun h => by rw [hv]; exact h⟩, ⟨hc, fun h => by rw [hc]; exact h⟩,
    queuePosition_status env svr s, ?_, ?_, ?_⟩
  · rw [searchForFriend_status]
  · rw [getServersList_status]
  · rw [setServer_status]

/-- Witness for C8 (amended): the first queue-position request of `svrQueue`
session 1 takes the status from AwaitingQueueAck to Idle. -/
theorem status_monotone_witness :
    (svrQueue.mem 1).status = .statusExpectingQueuePosition ∧
      ((handleAccountQueuePosition env0 svrQueue 1).1.mem 1).status = .statusIdle ∧
      (svrQueue.mem 1).status.rank ≤
        ((handleAccountQueuePosition env0 svrQueue 1).1.mem 1).status.rank :=
  ⟨by decide, by decide,
    (status_monotone env0 svrQueue 1 default default default default).2.2.1⟩

/-- Counterexample to C8 as stated: session 2 of `svrHeld` is Idle; after
`handleAccountVersion` its status is AwaitingCredential, which is lower. -/
theorem status_monotone_counterexample :
    (svrHeld.mem 2).status = .statusIdle ∧
      ((handleAccountVersion svrHeld 2 { Major := 1, Minor := 29, Patch := 0 }).1.mem 2).status
        = .statusExpectingCredential ∧
      ((handleAccountVersion svrHeld 2 { Major := 1, Minor := 29, Patch := 0 }).1.mem 2).status.rank
        < (svrHeld.mem 2).status.rank :=
  ⟨by decide, by decide, by decide⟩

/-! ## Characters per game server -/

theorem qtyAt_incr (m : List (Int × Int)) (k k' : Int) :
    qtyAt (incr m k) k' = qtyAt m k' + if k = k' then 1 else 0 := by
  induction m with
  | nil =>
    by_cases h : k = k' <;> simp [incr, qtyAt, h]
  | cons e rest ih =>
    obtain ⟨a, v⟩ := e
    by_cases h1 : a = k
    · subst h1
      by_cases h2 : a = k' <;> simp [incr, qtyAt, h2]
    · by_cases h2 : a = k'
      · subst h2
        have h3 : ¬ k = a := fun h => h1 h.symm
        simp [incr, qtyAt, h1, h3]
      · simp [incr, qtyAt, h1, h2, ih]

theorem keys_incr (m : List (Int × Int)) (k : Int) :
    (incr m k).map Prod.fst = if k ∈ m.map Prod.fst then m.map Prod.fst
      else m.map Prod.fst ++ [k] := by
  induction m with
  | nil => simp [incr]
  | cons e rest ih =>
    obtain ⟨a, v⟩ := e
    by_cases h1 : a = k
    · subst h1; simp [incr]
    · have h3 : ¬ k = a := fun h => h1 h.symm
      by_cases h2 : k ∈ rest.map Prod.fst
      · simp only [incr, h1, if_false, List.map_cons, ih, h2, if_true]
        simp [h2]
      · simp only [incr, h1, if_false, List.map_cons, ih, h2]
        simp [h3, h2]

theorem sum_incr (m : List (Int × Int)) (k : Int) :
    ((incr m k).map Prod.snd).sum = (m.map Prod.snd).sum + 1 := by
  induction m with
  | nil => simp [incr]
  | cons e rest ih =>
    obtain ⟨a, v⟩ := e
    by_cases h1 : a = k
    · simp [incr, h1]; ring
    · simp [incr, h1, ih]; ring

theorem pos_incr (m : List (Int × Int)) (k : Int) (h : ∀ e ∈ m, 1 ≤ e.2) :
    ∀ e ∈ incr m k, 1 ≤ e.2 := by
  induction m with
  | nil => simp [incr]
  | cons e rest ih =>
    obtain ⟨a, v⟩ := e
    have hv : 1 ≤ v := h (a, v) (List.mem_cons_self _ _)
    have hrest : ∀ e ∈ rest, 1 ≤ e.2 := fun e he => h e (List.mem_cons_of_mem _ he)
    by_cases h1 : a = k
    · intro e he
      simp only [incr, h1, if_true, List.mem_cons] at he
      rcases he with rfl | he
      · show 1 ≤ v + 1
        omega
      · exact hrest e he
    · intro e he
      simp only [incr, h1, if_false, List.mem_cons] at he
      rcases he with rfl | he
      · exact hv
      · exact ih hrest e he

theorem qtyAt_of_mem (m : List (Int × Int)) (hk : (m.map Prod.fst).Nodup) (k v : Int)
    (h : (k, v) ∈ m) : qtyAt m k = v := by
  induction m with
  | nil => simp at h
  | cons e rest ih =>
    obtain ⟨a, w⟩ := e
    simp only [List.map_cons, List.nodup_cons] at hk
    simp only [List.mem_cons, Prod.mk.injEq] at h
    rcases h with ⟨rfl, rfl⟩ | h
    · simp [qtyAt]
    · have hne : a ≠ k := by
        rintro rfl
        exact hk.1 (List.mem_map.mpr ⟨(a, v), h, rfl⟩)
      simp [qtyAt, hne, ih hk.2 h]

theorem mapCounts_nil : MapCounts [] [] :=
  ⟨by simp, by simp [qtyAt], by simp, by simp⟩

theorem mapCounts_incr (m : List (Int × Int)) (characters : List Character) (c : Character)
    (h : MapCounts m characters) : MapCounts (incr m c.GameServerId) (characters ++ [c]) := by
  refine ⟨?_, ?_, pos_incr m _ h.pos, ?_⟩
  · rw [keys_incr]
    split
    · exact h.keys
    · rename_i hk
      exact List.Nodup.append h.keys (List.nodup_singleton _) (by simpa using hk)
  · intro k
    rw [qtyAt_incr, h.reads k, List.countP_append]
    by_cases hk : c.GameServerId = k <;> simp [List.countP_cons, hk]
  · rw [sum_incr, h.total]
    simp

theorem mapCounts_countCharacters (m : List (Int × Int)) (seen characters : List Character)
    (h : MapCounts m seen) : MapCounts (countCharacters m characters) (seen ++ characters) := by
  induction characters generalizing m seen with
  | nil => simpa [countCharacters] using h
  | cons c rest ih =>
    have := ih (incr m c.GameServerId) (seen ++ [c]) (mapCounts_incr m seen c h)
    simpa [countCharacters] using this

theorem sorted_orderedInsert_id (a : AccountServersListServerCharacters)
    (l : List AccountServersListServerCharacters)
    (h : l.Sorted (fun x y => x.Id ≤ y.Id)) :
    (l.orderedInsert (fun x y => x.Id < y.Id) a).Sorted (fun x y => x.Id ≤ y.Id) := by
  induction l with
  | nil => simp
  | cons b rest ih =>
    have hb := List.sorted_cons.mp h
    by_cases hab : a.Id < b.Id
    · simp only [List.orderedInsert, hab, if_true]
      refine List.sorted_cons.mpr ⟨?_, h⟩
      intro x hx
      rcases List.mem_cons.mp hx with rfl | hx
      · exact le_of_lt hab
      · exact le_trans (le_of_lt hab) (hb.1 x hx)
    · simp only [List.orderedInsert, hab, if_false]
      refine List.sorted_cons.mpr ⟨?_, ih hb.2⟩
      intro x hx
      rcases (List.mem_orderedInsert _).mp hx with rfl | hx
      · exact not_lt.mp hab
      · exact hb.1 x hx

theorem sorted_insertionSort_id (l : List AccountServersListServerCharacters) :
    (l.insertionSort (fun x y => x.Id < y.Id)).Sorted (fun x y => x.Id ≤ y.Id) := by
  induction l with
  | nil => simp
  | cons a rest ih => exact sorted_orderedInsert_id a _ ih

/-- The reply list built from a Go map that counts `characters`, whatever the
range order. -/
theorem serverCharacters_counts (env : Env) (m : List (Int × Int))
    (characters : List Character) (h : MapCounts m characters) :
    CountsPerServer (serverCharacters env m) characters := by
  have hperm : (serverCharacters env m).Perm
      (m.map (fun e => ({ Id := e.1, Qty := e.2 } : AccountServersListServerCharacters))) :=
    (List.perm_insertionSort _ _).trans ((env.rangeServerIdQty.perm m).map _)
  have hids : ((serverCharacters env m).map (fun e => e.Id)).Nodup := by
    have h1 := hperm.map (fun e => e.Id)
    rw [List.map_map] at h1
    exact h1.nodup_iff.mpr h.keys
  refine ⟨?_, ?_, ?_⟩
  · have hsorted := sorted_insertionSort_id
      ((env.rangeServerIdQty.order m).map
        (fun e => ({ Id := e.1, Qty := e.2 } : AccountServersListServerCharacters)))
    have hne : (serverCharacters env m).Pairwise (fun a b => a.Id ≠ b.Id) :=
      List.pairwise_map.mp hids
    exact (List.Pairwise.and hsorted hne).imp (fun hab => lt_of_le_of_ne hab.1 hab.2)
  · intro e he
    have he2 := hperm.mem_iff.mp he
    obtain ⟨⟨k, v⟩, hkv, rfl⟩ := List.mem_map.mp he2
    have hq := qtyAt_of_mem m h.keys k v hkv
    exact ⟨by rw [← h.reads k, hq], h.pos (k, v) hkv⟩
  · have h1 := (hperm.map (fun e => e.Qty)).sum_eq
    rw [h1, List.map_map]
    exact h.total

theorem countAccounts_ok (env : Env) (svr : Server) (serverIdQty : List (Int × Int))
    (accounts : List Account) (charactersOf : Int → List Character)
    (h : ∀ a ∈ accounts,
      env.svc.Characters (.CharacterAccountIdEQ a.Id) = .ok (charactersOf a.Id)) :
    (countAccounts env svr serverIdQty accounts).2 =
      .ok (countCharacters serverIdQty (accounts.flatMap (fun a => charactersOf a.Id))) := by
  induction accounts generalizing svr serverIdQty with
  | nil => simp [countAccounts, countCharacters]
  | cons account rest ih =>
    have h1 := h account (List.mem_cons_self _ _)
    have h2 : ∀ a ∈ rest,
        env.svc.Characters (.CharacterAccountIdEQ a.Id) = .ok (charactersOf a.Id) :=
      fun a ha => h a (List.mem_cons_of_mem _ ha)
    simp only [countAccounts, h1, List.flatMap_cons]
    rw [ih _ _ h2]
    simp [countCharacters, List.foldl_append]

/-- C7. Whenever the repository lookups of `handleAccountGetServersList`
(respectively `handleAccountSearchForFriend`) succeed, the handler returns
success and sends exactly one reply, whose (server id, quantity) list has
strictly ascending server ids, each quantity being the number of returned
characters on that server (hence at least 1), and the quantities summing to the
number of returned characters: the characters of the current account
(respectively of all accounts of the found user, in lookup order). -/
theorem servers_list_counts (env : Env) (svr : Server) (s : Nat)
    (m : AccountSearchForFriend) :
    (∀ account characters,
      env.svc.Account (.AccountIdEQ (svr.mem s).accountId) = .ok account →
      env.svc.Characters (.CharacterAccountIdEQ (svr.mem s).accountId) = .ok characters →
      ∃ l, sentBy svr (handleAccountGetServersList env svr s).1 s =
          [.AccountServersListSuccess account.SubscribedUntil l] ∧
        (handleAccountGetServersList env svr s).2 = .ok () ∧
        CountsPerServer l characters) ∧
    (∀ user accounts (charactersOf : Int → List Character),
      env.svc.User (.UserNicknameEQ m.Pseudo) = .ok user →
      env.svc.Accounts (.AccountUserIdEQ user.Id) = .ok accounts →
      (∀ a ∈ accounts,
        env.svc.Characters (.CharacterAccountIdEQ a.Id) = .ok (charactersOf a.Id)) →
      ∃ l, sentBy svr (handleAccountSearchForFriend env svr s m).1 s =
          [.AccountFriendServerList l] ∧
        (handleAccountSearchForFriend env svr s m).2 = .ok () ∧
        CountsPerServer l (accounts.flatMap (fun a => charactersOf a.Id))) := by
  constructor
  · intro account characters ha hc
    refine ⟨serverCharacters env (countCharacters [] characters), ?_, ?_, ?_⟩
    · apply sentBy_of_append
      simp [handleAccountGetServersList, ha, hc]
    · simp [handleAccountGetServersList, ha, hc]
    · have := mapCounts_countCharacters [] [] characters mapCounts_nil
      exact serverCharacters_counts env _ characters (by simpa using this)
  · intro user accounts charactersOf hu ha hc
    have hok := countAccounts_ok env ((svr.call (.User (.UserNicknameEQ m.Pseudo))).call
      (.Accounts (.AccountUserIdEQ user.Id))) [] accounts charactersOf hc
    have hmem := countAccounts_mem env ((svr.call (.User (.UserNicknameEQ m.Pseudo))).call
      (.Accounts (.AccountUserIdEQ user.Id))) [] accounts
    cases hr : countAccounts env ((svr.call (.User (.UserNicknameEQ m.Pseudo))).call
      (.Accounts (.AccountUserIdEQ user.Id))) [] accounts with
    | mk svr3 r =>
      rw [hr] at hok hmem
      simp only at hok hmem
      subst hok
      simp only [call_mem] at hmem
      refine ⟨serverCharacters env
        (countCharacters [] (accounts.flatMap (fun a => charactersOf a.Id))), ?_, ?_, ?_⟩
      · apply sentBy_of_append
        simp [handleAccountSearchForFriend, hu, ha, hr, sendMsg, hmem]
      · simp [handleAccountSearchForFriend, hu, ha, hr]
      · have hmap := mapCounts_countCharacters [] []
          (accounts.flatMap (fun a => charactersOf a.Id)) mapCounts_nil
        exact serverCharacters_counts env _ _ (by simpa using hmap)

/-- Witness for C7: the account of session 2 of `svrHeld` has characters on
game servers 3, 1 and 3; the reply lists server 1 with one character and
server 3 with two. -/
theorem servers_list_counts_witness :
    sentBy svrHeld (handleAccountGetServersList env0 svrHeld 2).1 2 =
        [.AccountServersListSuccess 0 [{ Id := 1, Qty := 1 }, { Id := 3, Qty := 2 }]] ∧
      (∃ l, sentBy svrHeld (handleAccountGetServersList env0 svrHeld 2).1 2 =
          [.AccountServersListSuccess 0 l] ∧
        (handleAccountGetServersList env0 svrHeld 2).2 = .ok () ∧
        CountsPerServer l
          [{ Id := 1, AccountId := 7, GameServerId := 3 },
           { Id := 2, AccountId := 7, GameServerId := 1 },
           { Id := 3, AccountId := 7, GameServerId := 3 }]) ∧
      sentBy svrHeld (handleAccountSearchForFriend env0 svrHeld 2 { Pseudo := "al" }).1 2 =
        [.AccountFriendServerList [{ Id := 1, Qty := 1 }, { Id := 3, Qty := 2 }]] ∧
      ∃ l, sentBy svrHeld (handleAccountSearchForFriend env0 svrHeld 2 { Pseudo := "al" }).1 2 =
          [.AccountFriendServerList l] ∧
        (handleAccountSearchForFriend env0 svrHeld 2 { Pseudo := "al" }).2 = .ok () ∧
        CountsPerServer l
          ([({ Id := 7, UserId := "u1", Admin := false, SubscribedUntil := 0 } : Account)].flatMap
            (fun _ => [{ Id := 1, AccountId := 7, GameServerId := 3 },
              { Id := 2, AccountId := 7, GameServerId := 1 },
              { Id := 3, AccountId := 7, GameServerId := 3 }])) :=
  ⟨by decide, (servers_list_counts env0 svrHeld 2 default).1
    { Id := 7, UserId := "u1", Admin := false, SubscribedUntil := 0 } _ rfl rfl,
    by decide, (servers_list_counts env0 svrHeld 2 { Pseudo := "al" }).2
      { Id := "u1", Hash := "h", Nickname := "al", Community := 0, Question := "q" }
      [{ Id := 7, UserId := "u1", Admin := false, SubscribedUntil := 0 }]
      (fun _ => [{ Id := 1, AccountId := 7, GameServerId := 3 },
           { Id := 2, AccountId := 7, GameServerId := 1 },
           { Id := 3, AccountId := 7, GameServerId := 3 }])
      rfl rfl (fun _ _ => rfl)⟩

end D1Login
